import Mathlib

/-
Verification of the friend-chat client in `src/App.jsx` against its
specification.  The Firestore document store is embedded as explicit state
(association-list collections plus a server clock used to resolve
`serverTimestamp()` sentinels), and each handler of the component is embedded
as a pure state transition.  Awaited store writes that can reject are
parameterised by a success flag; a rejected write applies no effect, and a
rejected `writeBatch.commit()` applies none of the batched writes.
-/

/-- Whitespace test used by JavaScript `String.prototype.trim` (ASCII part). -/
def jsIsSpace (c : Char) : Bool :=
  c = ' ' || c = '\t' || c = '\n' || c = '\r' || c = '\x0b' || c = '\x0c'

/-- Drop whitespace from both ends of a character list. -/
def trimChars (l : List Char) : List Char :=
  ((l.dropWhile jsIsSpace).reverse.dropWhile jsIsSpace).reverse

/-- JavaScript `s.trim()` (`App.jsx` lines 52-55). -/
def jsTrim (s : String) : String :=
  ⟨trimChars s.data⟩

/-- JavaScript `s.toLowerCase()` (`App.jsx` lines 52-53), per-character. -/
def jsLower (s : String) : String :=
  ⟨s.data.map Char.toLower⟩

/-- Lexicographic comparison of code-unit sequences: the order used by the
default comparator of JavaScript `Array.prototype.sort` on strings. -/
def lexLe : List Char → List Char → Bool
  | [], _ => true
  | _ :: _, [] => false
  | a :: as, b :: bs => if a = b then lexLe as bs else decide (a < b)

theorem lexLe_total (x y : List Char) : lexLe x y = true ∨ lexLe y x = true := by
  induction x generalizing y with
  | nil => exact Or.inl rfl
  | cons a as ih =>
    cases y with
    | nil => exact Or.inr rfl
    | cons b bs =>
      by_cases hab : a = b
      · subst hab
        simpa [lexLe] using ih bs
      · have hba : b ≠ a := fun h => hab h.symm
        rcases lt_or_gt_of_ne hab with h | h
        · exact Or.inl (by simp [lexLe, hab, h])
        · exact Or.inr (by simp [lexLe, hba, h])

theorem lexLe_antisymm (x y : List Char) (hxy : lexLe x y = true)
    (hyx : lexLe y x = true) : x = y := by
  induction x generalizing y with
  | nil =>
    cases y with
    | nil => rfl
    | cons b bs => simp [lexLe] at hyx
  | cons a as ih =>
    cases y with
    | nil => simp [lexLe] at hxy
    | cons b bs =>
      by_cases hab : a = b
      · subst hab
        simp only [lexLe, if_pos rfl] at hxy hyx
        exact congrArg (a :: ·) (ih bs hxy hyx)
      · have hba : b ≠ a := fun h => hab h.symm
        simp only [lexLe, if_neg hab, decide_eq_true_eq] at hxy
        simp only [lexLe, if_neg hba, decide_eq_true_eq] at hyx
        exact absurd hyx (lt_asymm hxy)

/-- JavaScript two-string sort: `[a, b].sort()` keeps the order when
`a ≤ b` (stable) and swaps otherwise. -/
def sortPair (a b : String) : List String :=
  if lexLe a.data b.data then [a, b] else [b, a]

/-- `join("__")` over a list of strings. -/
def joinSep (sep : String) : List String → String
  | [] => ""
  | [x] => x
  | x :: xs => x ++ sep ++ joinSep sep xs

/-- `getChatId` (`App.jsx` lines 30-32): `[uidA, uidB].sort().join("__")`. -/
def getChatId (uidA uidB : String) : String :=
  joinSep "__" (sortPair uidA uidB)

theorem getChatId_comm (a b : String) : getChatId a b = getChatId b a := by
  unfold getChatId sortPair
  by_cases hab : lexLe a.data b.data = true
  · by_cases hba : lexLe b.data a.data = true
    · have : a.data = b.data := lexLe_antisymm a.data b.data hab hba
      have hs : a = b := by
        cases a; cases b; exact congrArg String.mk this
      subst hs
      simp
    · simp [hab, hba]
  · have hba : lexLe b.data a.data = true := by
      rcases lexLe_total a.data b.data with h | h
      · exact absurd h hab
      · exact h
    simp [hab, hba]

example : getChatId "u2" "u1" = "u1__u2" := by decide
example : getChatId "u1" "u2" = "u1__u2" := by decide

/-- A Firestore collection: documents addressed by string id.  `set` models
`setDoc` (one document per id: the previous binding, if any, is replaced). -/
def Col (α : Type) : Type := List (String × α)

instance (α : Type) [DecidableEq α] : DecidableEq (Col α) := by
  unfold Col
  infer_instance

def Col.nil (α : Type) : Col α := []

def Col.get {α : Type} (c : Col α) (k : String) : Option α :=
  (List.find? (fun p => p.1 == k) c).map (fun p => p.2)

def Col.set {α : Type} (c : Col α) (k : String) (v : α) : Col α :=
  (k, v) :: List.filter (fun p => !(p.1 == k)) c

/-- Number of documents stored under id `k` (a well-formed collection has at
most one). -/
def Col.countKey {α : Type} (c : Col α) (k : String) : Nat :=
  (List.filter (fun p => p.1 == k) c).length

theorem Col.get_nil {α : Type} (k : String) : (Col.nil α).get k = none := rfl

theorem Col.get_set_self {α : Type} (c : Col α) (k : String) (v : α) :
    (c.set k v).get k = some v := by
  simp [Col.get, Col.set, List.find?]

theorem find?_filter_ne {α : Type} (c : List (String × α)) (k j : String)
    (h : j ≠ k) :
    List.find? (fun p => p.1 == j) (List.filter (fun p => !(p.1 == k)) c) =
      List.find? (fun p => p.1 == j) c := by
  induction c with
  | nil => rfl
  | cons p c ih =>
    by_cases hpk : p.1 = k
    · have hpk2 : (p.1 == k) = true := by simp [hpk]
      have hpj2 : (p.1 == j) = false := by
        simp [hpk]
        exact fun hh => h hh.symm
      simp [List.filter_cons, List.find?_cons, hpk2, hpj2, ih]
    · have hpk2 : (p.1 == k) = false := by simp [hpk]
      by_cases hpj : p.1 = j
      · have hpj2 : (p.1 == j) = true := by simp [hpj]
        simp [List.filter_cons, List.find?_cons, hpk2, hpj2]
      · have hpj2 : (p.1 == j) = false := by simp [hpj]
        simp [List.filter_cons, List.find?_cons, hpk2, hpj2, ih]

theorem Col.get_set_ne {α : Type} (c : Col α) (k j : String) (v : α)
    (h : j ≠ k) : (c.set k v).get j = c.get j := by
  have hk : (k == j) = false := by
    simp
    exact fun hh => h hh.symm
  simp [Col.get, Col.set, List.find?, hk, find?_filter_ne c k j h]

theorem Col.countKey_set_self {α : Type} (c : Col α) (k : String) (v : α) :
    (c.set k v).countKey k = 1 := by
  simp [Col.countKey, Col.set, List.filter_filter]

/-- Directory entry at `usernames/{handle}` (`App.jsx` lines 271-275). -/
structure DirectoryEntry where
  uid : String
  email : String
  username : String
deriving DecidableEq

/-- Account profile at `users/{uid}` (`App.jsx` lines 277-281). -/
structure Profile where
  username : String
  email : String
  createdAt : Nat
deriving DecidableEq

/-- Friendship mirror entry at `users/{uid}/friends/{otherUid}`
(`App.jsx` lines 221-229). -/
structure FriendEntry where
  username : String
  addedAt : Nat
deriving DecidableEq

inductive ReqStatus where
  | pending
  | accepted
  | rejected
deriving DecidableEq

/-- Friend request document at `friendRequests/{fromUid}__{toUid}`
(`App.jsx` lines 199-206).  `respondedAt` is absent (`none`) until a respond
operation stamps it. -/
structure FriendRequest where
  fromUid : String
  fromUsername : String
  toUid : String
  toUsername : String
  status : ReqStatus
  createdAt : Nat
  respondedAt : Option Nat
deriving DecidableEq

/-- Channel document at `chats/{chatId}` (`App.jsx` lines 231-238). -/
structure Channel where
  members : List String
  updatedAt : Nat
deriving DecidableEq

/-- Message document at `chats/{chatId}/messages/{id}`
(`App.jsx` lines 152-157).  `createdAt` is resolved from the store clock at
commit time (`serverTimestamp()`), never supplied by the client. -/
structure Message where
  authorUid : String
  authorUsername : String
  text : String
  createdAt : Nat
deriving DecidableEq

/-- The document store.  `clock` is the server clock: every committed write
that carries a `serverTimestamp()` sentinel resolves it to the current clock
value, and the clock then advances. -/
structure Store where
  usernames : Col DirectoryEntry
  users : Col Profile
  friends : Col (Col FriendEntry)
  friendRequests : Col FriendRequest
  chats : Col Channel
  messages : Col (List Message)
  clock : Nat
deriving DecidableEq

def Store.empty : Store :=
  ⟨Col.nil _, Col.nil _, Col.nil _, Col.nil _, Col.nil _, Col.nil _, 0⟩

/-- An element of the `friends` subscription snapshot:
`{ uid: item.id, ...item.data() }` (`App.jsx` lines 108-111). -/
structure Friend where
  uid : String
  username : String
  addedAt : Nat
deriving DecidableEq

/-- An element of the `incomingRequests` snapshot:
`{ id: item.id, ...item.data() }` (`App.jsx` lines 134-135). -/
structure RequestItem where
  id : String
  fromUid : String
  fromUsername : String
  toUid : String
  toUsername : String
  status : ReqStatus
  createdAt : Nat
  respondedAt : Option Nat
deriving DecidableEq

/-- The component state (`App.jsx` lines 36-50), restricted to the fields the
core handlers read or write. -/
structure AppState where
  store : Store
  currentUser : Option String
  fixedUsername : String
  searchName : String
  draft : String
  friends : List Friend
  activeFriend : Option Friend
  friendError : String
deriving DecidableEq

/-- `activeChatId` (`App.jsx` lines 56-59): `getChatId(currentUser.uid,
activeFriend.uid)` when both are present, otherwise the empty string. -/
def activeChatId (st : AppState) : String :=
  match st.currentUser, st.activeFriend with
  | some uid, some f => getChatId uid f.uid
  | _, _ => ""

/-- `sendMessage` (`App.jsx` lines 147-158).  The guard returns with no
effect; otherwise the draft is cleared first and only then is the `addDoc`
awaited, so the draft is empty in the resulting state even when the append
rejects (`appendOk = false`).  The appended document carries no client
timestamp: `createdAt` is the `serverTimestamp()` sentinel, resolved to the
store clock at commit. -/
def sendMessage (st : AppState) (appendOk : Bool) : AppState :=
  match st.currentUser with
  | none => st
  | some uid =>
    if jsTrim st.fixedUsername = "" then st
    else if activeChatId st = "" then st
    else if jsTrim st.draft = "" then st
    else
      let st1 := { st with draft := "" }
      if appendOk then
        { st1 with store :=
            { st1.store with
              messages := st1.store.messages.set (activeChatId st)
                (((st1.store.messages.get (activeChatId st)).getD []) ++
                  [⟨uid, jsTrim st.fixedUsername, jsTrim st.draft,
                    st1.store.clock⟩]),
              clock := st1.store.clock + 1 } }
      else st1

/-- `sendFriendRequest` (`App.jsx` lines 167-209).  Errors are the literal
strings the handler writes into `friendError`; the already-friends check uses
the component's `friends` snapshot, as in the source. -/
def sendFriendRequest (st : AppState) : AppState :=
  let st0 := { st with friendError := "" }
  match st.currentUser with
  | none => st0
  | some uid =>
    if jsTrim st.fixedUsername = "" then st0
    else if jsLower (jsTrim st.searchName) = "" then st0
    else if jsLower (jsTrim st.searchName) = jsTrim st.fixedUsername then
      { st0 with friendError := "You cannot add yourself." }
    else
      match st0.store.usernames.get (jsLower (jsTrim st.searchName)) with
      | none => { st0 with friendError := "Username not found." }
      | some target =>
        if st.friends.any (fun f => f.uid == target.uid) then
          { st0 with friendError := "User is already your friend." }
        else
          let requestId := uid ++ "__" ++ target.uid
          let existing := st0.store.friendRequests.get requestId
          if existing.map FriendRequest.status = some ReqStatus.pending then
            { st0 with friendError := "Friend request already sent." }
          else
            { st0 with
              store := { st0.store with
                friendRequests := st0.store.friendRequests.set requestId
                  ⟨uid, jsTrim st.fixedUsername, target.uid,
                    jsLower (jsTrim st.searchName), ReqStatus.pending,
                    st0.store.clock, none⟩,
                clock := st0.store.clock + 1 },
              searchName := "" }

/-- `acceptRequest` (`App.jsx` lines 211-241).  The four writes are issued in
one `writeBatch` and committed atomically: if the `update` target
`friendRequests/{item.id}` does not exist the whole commit rejects and no
write applies.  The `chats/{chatId}` write uses `{ merge: true }`; since it
sets both fields of the channel document, the merge coincides with a full
set.  All four `serverTimestamp()` sentinels resolve to the same commit-time
clock value. -/
def acceptRequest (s : Store) (currentUser : Option String)
    (item : RequestItem) : Store :=
  match currentUser with
  | none => s
  | some _ =>
    let chatId := getChatId item.fromUid item.toUid
    match s.friendRequests.get item.id with
    | none => s
    | some req =>
      let t := s.clock
      let f1 := (s.friends.get item.fromUid).getD (Col.nil _)
      let friendsA := s.friends.set item.fromUid
        (f1.set item.toUid ⟨item.toUsername, t⟩)
      let f2 := (friendsA.get item.toUid).getD (Col.nil _)
      { s with
        friendRequests := s.friendRequests.set item.id
          { req with status := ReqStatus.accepted, respondedAt := some t },
        friends := friendsA.set item.toUid
          (f2.set item.fromUid ⟨item.fromUsername, t⟩),
        chats := s.chats.set chatId ⟨[item.fromUid, item.toUid], t⟩,
        clock := s.clock + 1 }

/-- `rejectRequest` (`App.jsx` lines 243-248): a single `updateDoc` that sets
`status` to `rejected` and stamps `respondedAt`.  `updateDoc` on a missing
document rejects and applies nothing. -/
def rejectRequest (s : Store) (itemId : String) : Store :=
  match s.friendRequests.get itemId with
  | none => s
  | some req =>
    { s with
      friendRequests := s.friendRequests.set itemId
        { req with status := ReqStatus.rejected, respondedAt := some s.clock },
      clock := s.clock + 1 }

/-- The `register` branch of `onAuthSubmit` (`App.jsx` lines 250-287).
`newUid` is the uid minted by the external auth collaborator
(`createUserWithEmailAndPassword`).  Each awaited call may reject
(`authOk`, `dirOk`, `profOk`); a rejection is caught by the surrounding
`try`/`catch`, which sets the error message and leaves every store write
already performed in place.  The caught error message is modelled by the
handler's fallback string. -/
def registerSubmit (s : Store) (username email password newUid : String)
    (authOk dirOk profOk : Bool) : Store × String :=
  if jsLower (jsTrim username) = "" ∨ password = "" ∨ jsTrim email = "" then
    (s, "Fill all required fields.")
  else
    match s.usernames.get (jsLower (jsTrim username)) with
    | some _ => (s, "Username is already taken.")
    | none =>
      if !authOk then (s, "Authentication failed.")
      else if !dirOk then (s, "Authentication failed.")
      else
        let s1 := { s with
          usernames := s.usernames.set (jsLower (jsTrim username))
            ⟨newUid, jsTrim email, jsLower (jsTrim username)⟩ }
        if !profOk then (s1, "Authentication failed.")
        else
          ({ s1 with
              users := s1.users.set newUid
                ⟨jsLower (jsTrim username), jsTrim email, s1.clock⟩,
              clock := s1.clock + 1 },
            "")

/-- The comparator behind `orderBy("createdAt", "asc")`. -/
def byCreatedAt (x y : Message) : Bool :=
  decide (x.createdAt ≤ y.createdAt)

/-- One delivery of the messages subscription (`App.jsx` lines 76-93): the
full current content of `chats/{chatId}/messages`, ordered ascending by
`createdAt`. -/
def messagesSnapshot (s : Store) (chatId : String) : List Message :=
  ((s.messages.get chatId).getD []).mergeSort byCreatedAt

/-- The `setActiveFriend` updater of the friends subscription (`App.jsx`
lines 114-118): keep the previous selection when its uid is still present,
otherwise fall back to the head of the new list (`nextFriends[0] || null`). -/
def nextActiveFriend (prev : Option Friend) (nextFriends : List Friend) :
    Option Friend :=
  match prev with
  | none => nextFriends.head?
  | some p =>
    if nextFriends.any (fun f => f.uid == p.uid) then some p
    else nextFriends.head?

theorem dropWhile_dropWhile (p : Char → Bool) (l : List Char) :
    (l.dropWhile p).dropWhile p = l.dropWhile p := by
  induction l with
  | nil => rfl
  | cons a l ih =>
    by_cases h : p a = true
    · simp [List.dropWhile_cons, h, ih]
    · simp [List.dropWhile_cons, h]

theorem dropWhile_trimChars (l : List Char) :
    (trimChars l).dropWhile jsIsSpace = trimChars l := by
  unfold trimChars
  have hA : (l.dropWhile jsIsSpace).dropWhile jsIsSpace =
      l.dropWhile jsIsSpace := dropWhile_dropWhile _ _
  have hsuf : (l.dropWhile jsIsSpace).reverse.dropWhile jsIsSpace <:+
      (l.dropWhile jsIsSpace).reverse := List.dropWhile_suffix _
  have hpre : ((l.dropWhile jsIsSpace).reverse.dropWhile jsIsSpace).reverse <+:
      l.dropWhile jsIsSpace := by
    simpa using List.reverse_prefix.mpr hsuf
  obtain ⟨t, ht⟩ := hpre
  cases hB : ((l.dropWhile jsIsSpace).reverse.dropWhile jsIsSpace).reverse with
  | nil => simp
  | cons x xs =>
    rw [hB] at ht
    have hxA : l.dropWhile jsIsSpace = x :: (xs ++ t) := by
      rw [← ht]; rfl
    have hx : jsIsSpace x = false := by
      by_contra hx
      have hx2 : jsIsSpace x = true := by
        cases h2 : jsIsSpace x with
        | true => rfl
        | false => exact absurd h2 hx
      rw [hxA, List.dropWhile_cons, if_pos hx2] at hA
      have hlen : ((xs ++ t).dropWhile jsIsSpace).length ≤ (xs ++ t).length :=
        (List.dropWhile_suffix _).length_le
      rw [hA] at hlen
      simp at hlen
    rw [List.dropWhile_cons, if_neg (by simp [hx])]

theorem trimChars_idem (l : List Char) :
    trimChars (trimChars l) = trimChars l := by
  conv_lhs => rw [trimChars]
  rw [dropWhile_trimChars l]
  have : (trimChars l).reverse.dropWhile jsIsSpace = (trimChars l).reverse := by
    rw [trimChars, List.reverse_reverse]
    exact dropWhile_dropWhile _ _
  rw [this, List.reverse_reverse]

theorem jsTrim_idem (s : String) : jsTrim (jsTrim s) = jsTrim s := by
  unfold jsTrim
  exact congrArg String.mk (trimChars_idem s.data)

/-- C2: the channel resolver is symmetric and deterministic: for all uids,
`getChatId a b = getChatId b a`, and the result is the lexicographically
sorted pair joined with the separator `"__"`.  The very same pure function
computes the channel id used by the acceptance transaction's `chats` write
and by the participants' message subscriptions (`activeChatId`).  As a Lean
function it has no side effects by construction. -/
theorem channelId_symmetric_deterministic (a b : String) :
    getChatId a b = getChatId b a ∧
    (lexLe a.data b.data = true → getChatId a b = a ++ "__" ++ b) ∧
    (lexLe a.data b.data = false → getChatId a b = b ++ "__" ++ a) ∧
    (∀ (st : AppState) (uid : String) (f : Friend),
      st.currentUser = some uid → st.activeFriend = some f →
      activeChatId st = getChatId uid f.uid) ∧
    (∀ (s : Store) (u : String) (item : RequestItem) (r : FriendRequest),
      s.friendRequests.get item.id = some r →
      (acceptRequest s (some u) item).chats.get
          (getChatId item.fromUid item.toUid) =
        some ⟨[item.fromUid, item.toUid], s.clock⟩) := by
  refine ⟨getChatId_comm a b, ?_, ?_, ?_, ?_⟩
  · intro h
    simp [getChatId, sortPair, h, joinSep]
  · intro h
    simp [getChatId, sortPair, h, joinSep]
  · intro st uid f h1 h2
    simp [activeChatId, h1, h2]
  · intro s u item r hr
    simp [acceptRequest, hr, Col.get_set_self]

theorem channelId_symmetric_deterministic_witness :
    getChatId "u1" "u2" = getChatId "u2" "u1" ∧
    getChatId "u1" "u2" = "u1" ++ "__" ++ "u2" := by
  have h := channelId_symmetric_deterministic "u1" "u2"
  exact ⟨h.1, h.2.1 (by decide)⟩

/-- C5: when the search handle normalizes to the component's own (trimmed)
handle, `sendFriendRequest` stops with the self-request error and performs no
store write: the resulting state is the input state with only `friendError`
set, so no request record is created. -/
theorem selfRequest_rejected (st : AppState) (uid : String)
    (h1 : st.currentUser = some uid)
    (h2 : jsTrim st.fixedUsername ≠ "")
    (h3 : jsLower (jsTrim st.searchName) = jsTrim st.fixedUsername) :
    sendFriendRequest st =
      { st with friendError := "You cannot add yourself." } := by
  have h4 : jsLower (jsTrim st.searchName) ≠ "" := by
    rw [h3]; exact h2
  simp [sendFriendRequest, h1, h2, h3, h4]

theorem selfRequest_rejected_witness :
    sendFriendRequest
        ⟨Store.empty, some "u1", "alice", " Alice ", "", [], none, ""⟩ =
      { (⟨Store.empty, some "u1", "alice", " Alice ", "", [], none, ""⟩ :
          AppState) with friendError := "You cannot add yourself." } :=
  selfRequest_rejected _ "u1" rfl (by decide) (by decide)

/-- C9: on each delivery of the friends subscription, the selection updater
keeps the current active friend when an entry with the same uid is still
present, and otherwise selects the head of the new list, which is `none`
exactly when the new list is empty. -/
theorem activeFriend_reselect (prev : Friend) (l : List Friend) :
    ((∃ f ∈ l, f.uid = prev.uid) →
      nextActiveFriend (some prev) l = some prev) ∧
    ((∀ f ∈ l, f.uid ≠ prev.uid) →
      nextActiveFriend (some prev) l = l.head?) ∧
    ((∀ f ∈ l, f.uid ≠ prev.uid) → l = [] →
      nextActiveFriend (some prev) l = none) := by
  refine ⟨?_, ?_, ?_⟩
  · intro h
    have ha : l.any (fun f => f.uid == prev.uid) = true := by
      rw [List.any_eq_true]
      obtain ⟨f, hf, he⟩ := h
      exact ⟨f, hf, by simp [he]⟩
    simp [nextActiveFriend, ha]
  · intro h
    have ha : l.any (fun f => f.uid == prev.uid) = false := by
      rw [List.any_eq_false]
      intro f hf
      simp [h f hf]
    simp [nextActiveFriend, ha]
  · intro _ hl
    subst hl
    simp [nextActiveFriend]

theorem activeFriend_reselect_witness :
    nextActiveFriend (some ⟨"u2", "bob", 0⟩) [⟨"u3", "carol", 1⟩] =
      some ⟨"u3", "carol", 1⟩ := by
  have h := (activeFriend_reselect ⟨"u2", "bob", 0⟩ [⟨"u3", "carol", 1⟩]).2.1
    (by decide)
  simpa using h

/-- C6: a draft whose trimmed text is empty leaves the state (store included)
completely unchanged — no message record is produced; a successful post
appends exactly one message carrying the author's uid, the author's handle,
the (trimmed) text, and a creation timestamp taken from the store clock.
The handler passes no client time: `createdAt` is the `serverTimestamp()`
sentinel, resolved by the store. -/
theorem post_message_spec (st : AppState) (ok : Bool) :
    (jsTrim st.draft = "" → sendMessage st ok = st) ∧
    (∀ uid : String, st.currentUser = some uid →
      jsTrim st.fixedUsername ≠ "" → activeChatId st ≠ "" →
      jsTrim st.draft ≠ "" →
      (sendMessage st true).store.messages.get (activeChatId st) =
        some (((st.store.messages.get (activeChatId st)).getD []) ++
          [⟨uid, jsTrim st.fixedUsername, jsTrim st.draft,
            st.store.clock⟩])) := by
  constructor
  · intro h
    cases hcu : st.currentUser with
    | none => simp [sendMessage, hcu]
    | some uid => simp [sendMessage, hcu, h]
  · intro uid h1 h2 h3 h4
    simp [sendMessage, h1, h2, h3, h4, Col.get_set_self]

theorem post_message_spec_witness :
    (sendMessage
        ⟨Store.empty, some "u1", "alice", "", "  ", [], some ⟨"u2", "bob", 0⟩,
          ""⟩ true) =
      ⟨Store.empty, some "u1", "alice", "", "  ", [], some ⟨"u2", "bob", 0⟩,
        ""⟩ ∧
    (sendMessage
        ⟨Store.empty, some "u1", "alice", "", " hi ", [], some ⟨"u2", "bob", 0⟩,
          ""⟩ true).store.messages.get
        (activeChatId
          ⟨Store.empty, some "u1", "alice", "", " hi ", [],
            some ⟨"u2", "bob", 0⟩, ""⟩) =
      some [⟨"u1", "alice", "hi", 0⟩] := by
  constructor
  · exact (post_message_spec _ true).1 (by decide)
  · have h := (post_message_spec
      ⟨Store.empty, some "u1", "alice", "", " hi ", [], some ⟨"u2", "bob", 0⟩,
        ""⟩ true).2 "u1" rfl (by decide) (by decide) (by decide)
    simpa using h

/-- C10: with all of `sendMessage`'s guards satisfied, the draft is cleared
to `""` before the `addDoc` is awaited — so the resulting draft is empty
whether or not the append succeeds — and the text actually appended is the
trimmed draft, which re-trims to itself (no leading or trailing
whitespace). -/
theorem draft_cleared_text_trimmed (st : AppState) (ok : Bool) (uid : String)
    (h1 : st.currentUser = some uid)
    (h2 : jsTrim st.fixedUsername ≠ "")
    (h3 : activeChatId st ≠ "")
    (h4 : jsTrim st.draft ≠ "") :
    (sendMessage st ok).draft = "" ∧
    ((sendMessage st true).store.messages.get (activeChatId st) =
      some (((st.store.messages.get (activeChatId st)).getD []) ++
        [⟨uid, jsTrim st.fixedUsername, jsTrim st.draft,
          st.store.clock⟩])) ∧
    jsTrim (jsTrim st.draft) = jsTrim st.draft := by
  refine ⟨?_, ?_, jsTrim_idem st.draft⟩
  · cases ok <;> simp [sendMessage, h1, h2, h3, h4]
  · simp [sendMessage, h1, h2, h3, h4, Col.get_set_self]

theorem draft_cleared_text_trimmed_witness :
    (sendMessage
        ⟨Store.empty, some "u1", "alice", "", " hi ", [], some ⟨"u2", "bob", 0⟩,
          ""⟩ false).draft = "" ∧
    jsTrim (jsTrim " hi ") = jsTrim " hi " := by
  have h := draft_cleared_text_trimmed
    ⟨Store.empty, some "u1", "alice", "", " hi ", [], some ⟨"u2", "bob", 0⟩,
      ""⟩ false "u1" rfl (by decide) (by decide) (by decide)
  exact ⟨h.1, h.2.2⟩

/-- C4: with the earlier guards passed and an existing request under the
deterministic id `fromUid ++ "__" ++ toUid`: when that request is `pending`
the send stops with the already-sent error and the whole state (store
included) is unchanged except for the error message, and a store holding
exactly one record under the id keeps exactly one; when it is `rejected`
the send proceeds and overwrites the same id with a fresh `pending` record
(clearing `respondedAt`), after which exactly one record exists for the
pair. -/
theorem send_request_pending_blocks (st : AppState) (uid : String)
    (target : DirectoryEntry) (req : FriendRequest)
    (h1 : st.currentUser = some uid)
    (h2 : jsTrim st.fixedUsername ≠ "")
    (h3 : jsLower (jsTrim st.searchName) ≠ "")
    (h4 : jsLower (jsTrim st.searchName) ≠ jsTrim st.fixedUsername)
    (h5 : st.store.usernames.get (jsLower (jsTrim st.searchName)) = some target)
    (h6 : st.friends.any (fun f => f.uid == target.uid) = false)
    (h7 : st.store.friendRequests.get (uid ++ "__" ++ target.uid) = some req) :
    (req.status = ReqStatus.pending →
      sendFriendRequest st =
        { st with friendError := "Friend request already sent." } ∧
      (st.store.friendRequests.countKey (uid ++ "__" ++ target.uid) = 1 →
        (sendFriendRequest st).store.friendRequests.countKey
          (uid ++ "__" ++ target.uid) = 1)) ∧
    (req.status = ReqStatus.rejected →
      (sendFriendRequest st).store.friendRequests.get
          (uid ++ "__" ++ target.uid) =
        some ⟨uid, jsTrim st.fixedUsername, target.uid,
          jsLower (jsTrim st.searchName), ReqStatus.pending,
          st.store.clock, none⟩ ∧
      (sendFriendRequest st).store.friendRequests.countKey
          (uid ++ "__" ++ target.uid) = 1 ∧
      (sendFriendRequest st).friendError = "") := by
  constructor
  · intro hp
    have hmain : sendFriendRequest st =
        { st with friendError := "Friend request already sent." } := by
      simp [sendFriendRequest, h1, h2, h3, h4, h5, h6, h7, hp]
    refine ⟨hmain, ?_⟩
    intro hcount
    rw [hmain]
    exact hcount
  · intro hp
    have hne : (some req).map FriendRequest.status ≠
        some ReqStatus.pending := by
      simp [hp]
    simp [sendFriendRequest, h1, h2, h3, h4, h5, h6, h7, hne, hp,
      Col.get_set_self, Col.countKey_set_self]

theorem send_request_pending_blocks_witness :
    (sendFriendRequest
        ⟨{ Store.empty with
            usernames := (Col.nil DirectoryEntry).set "bob"
              ⟨"u2", "b@example.com", "bob"⟩,
            friendRequests := (Col.nil FriendRequest).set "u1__u2"
              ⟨"u1", "alice", "u2", "bob", ReqStatus.rejected, 0, some 1⟩,
            clock := 2 },
          some "u1", "alice", "Bob", "", [], none, ""⟩).store.friendRequests.get
        "u1__u2" =
      some ⟨"u1", "alice", "u2", "bob", ReqStatus.pending, 2, none⟩ := by
  have h := (send_request_pending_blocks
    ⟨{ Store.empty with
        usernames := (Col.nil DirectoryEntry).set "bob"
          ⟨"u2", "b@example.com", "bob"⟩,
        friendRequests := (Col.nil FriendRequest).set "u1__u2"
          ⟨"u1", "alice", "u2", "bob", ReqStatus.rejected, 0, some 1⟩,
        clock := 2 },
      some "u1", "alice", "Bob", "", [], none, ""⟩
    "u1" ⟨"u2", "b@example.com", "bob"⟩
    ⟨"u1", "alice", "u2", "bob", ReqStatus.rejected, 0, some 1⟩
    rfl (by decide) (by decide) (by decide) (by decide) (by decide)
    (by decide)).2 rfl
  simpa using h.1

/-- C7 (amended): the respond operations write their terminal status to the
addressed request unconditionally (`App.jsx` lines 216 and 244), so the
original "never reverted" guarantee holds only with the UI's invocation
precondition: the item responded to is drawn from the incoming-request list,
filtered to `status === "pending"` (`App.jsx` line 136), and its request is
still `pending` in the current store.  Under that precondition neither
`acceptRequest` nor `rejectRequest` touches any request already in a
terminal state; and rejecting an already-rejected request is a state-wise
no-op: the status remains `rejected`, only `respondedAt` is restamped with
the current store clock.  Without the precondition the guarantee fails: see
`terminal_status_reverted_counterexample` for a stale item whose rejected
request is flipped back to `accepted`. -/
theorem terminal_status_stable (s : Store) (cu : Option String)
    (item : RequestItem) (r q : FriendRequest) (rid : String)
    (hpend : s.friendRequests.get item.id = some r)
    (hps : r.status = ReqStatus.pending)
    (hq : s.friendRequests.get rid = some q)
    (hterm : q.status = ReqStatus.accepted ∨ q.status = ReqStatus.rejected) :
    ((acceptRequest s cu item).friendRequests.get rid).map
        FriendRequest.status = some q.status ∧
    ((rejectRequest s item.id).friendRequests.get rid).map
        FriendRequest.status = some q.status ∧
    (q.status = ReqStatus.rejected →
      ((rejectRequest s rid).friendRequests.get rid).map
          FriendRequest.status = some ReqStatus.rejected ∧
      ((rejectRequest s rid).friendRequests.get rid).map
          FriendRequest.respondedAt = some (some s.clock)) := by
  have hne : rid ≠ item.id := by
    intro h
    subst h
    rw [hpend] at hq
    have hrq : r = q := Option.some.inj hq
    rw [← hrq, hps] at hterm
    rcases hterm with h | h <;> exact ReqStatus.noConfusion h
  refine ⟨?_, ?_, ?_⟩
  · cases cu with
    | none => simp [acceptRequest, hq]
    | some u =>
      simp [acceptRequest, hpend, Col.get_set_ne _ _ _ _ hne, hq]
  · simp [rejectRequest, hpend, Col.get_set_ne _ _ _ _ hne, hq]
  · intro hqr
    simp [rejectRequest, hq, Col.get_set_self, hqr]

/-- Store used to exercise `terminal_status_stable`: one pending request
(`u1 → u2`) and one already-rejected request (`u3 → u2`). -/
def twoRequestStore : Store :=
  { Store.empty with
    friendRequests := ((Col.nil FriendRequest).set "u3__u2"
        ⟨"u3", "carol", "u2", "bob", ReqStatus.rejected, 0, some 1⟩).set
      "u1__u2" ⟨"u1", "alice", "u2", "bob", ReqStatus.pending, 2, none⟩,
    clock := 3 }

def pendingItem : RequestItem :=
  ⟨"u1__u2", "u1", "alice", "u2", "bob", ReqStatus.pending, 2, none⟩

theorem terminal_status_stable_witness :
    ((acceptRequest twoRequestStore (some "u2") pendingItem).friendRequests.get
        "u3__u2").map FriendRequest.status = some ReqStatus.rejected ∧
    ((rejectRequest twoRequestStore "u3__u2").friendRequests.get
        "u3__u2").map FriendRequest.status = some ReqStatus.rejected := by
  have h := terminal_status_stable twoRequestStore (some "u2") pendingItem
    ⟨"u1", "alice", "u2", "bob", ReqStatus.pending, 2, none⟩
    ⟨"u3", "carol", "u2", "bob", ReqStatus.rejected, 0, some 1⟩ "u3__u2"
    (by decide) rfl (by decide) (Or.inr rfl)
  exact ⟨h.1, (h.2.2 rfl).1⟩

/-- A stale snapshot item for the request `u3 → u2`: it was captured while
the request was still `pending`, but in `twoRequestStore` the stored
document has meanwhile become `rejected`. -/
def staleItem : RequestItem :=
  ⟨"u3__u2", "u3", "carol", "u2", "bob", ReqStatus.pending, 0, none⟩

/-- C7 counterexample: the respond operations carry no status precondition,
so a terminal state is not "never reverted".  In `twoRequestStore` the
request `u3__u2` is already in the terminal state `rejected`; invoking
`acceptRequest` on a stale item for it (snapshot taken before the
rejection) overwrites the status to `accepted`, reverting the terminal
lifecycle state. -/
theorem terminal_status_reverted_counterexample :
    (twoRequestStore.friendRequests.get "u3__u2").map FriendRequest.status =
      some ReqStatus.rejected ∧
    ((acceptRequest twoRequestStore (some "u2") staleItem).friendRequests.get
        "u3__u2").map FriendRequest.status = some ReqStatus.accepted := by
  decide

/-- C1: `acceptRequest` commits one atomic batch.  Either nothing at all
happens (missing signed-in user, or the batched `update` target is absent
and the whole commit rejects) — the store is returned unchanged — or all
four effects are observable together: the request is `accepted` with a
stamped response time, both mirrored friendship entries exist, and the
channel document for the pair's channel id is written; and nothing else in
the store changes.  No strict subset of the four effects is a possible
outcome. -/
theorem accept_transaction_atomic (s : Store) (cu : Option String)
    (item : RequestItem) (hne : item.fromUid ≠ item.toUid) :
    acceptRequest s cu item = s ∨
    ∃ req, s.friendRequests.get item.id = some req ∧
      (acceptRequest s cu item).friendRequests.get item.id =
        some { req with
                status := ReqStatus.accepted
                respondedAt := some s.clock } ∧
      Col.get (((acceptRequest s cu item).friends.get item.fromUid).getD
        (Col.nil _)) item.toUid = some ⟨item.toUsername, s.clock⟩ ∧
      Col.get (((acceptRequest s cu item).friends.get item.toUid).getD
        (Col.nil _)) item.fromUid = some ⟨item.fromUsername, s.clock⟩ ∧
      (acceptRequest s cu item).chats.get
          (getChatId item.fromUid item.toUid) =
        some ⟨[item.fromUid, item.toUid], s.clock⟩ ∧
      (acceptRequest s cu item).usernames = s.usernames ∧
      (acceptRequest s cu item).users = s.users ∧
      (acceptRequest s cu item).messages = s.messages ∧
      (∀ k, k ≠ item.id →
        (acceptRequest s cu item).friendRequests.get k =
          s.friendRequests.get k) ∧
      (∀ u, u ≠ item.fromUid → u ≠ item.toUid →
        (acceptRequest s cu item).friends.get u = s.friends.get u) ∧
      (∀ c, c ≠ getChatId item.fromUid item.toUid →
        (acceptRequest s cu item).chats.get c = s.chats.get c) ∧
      (∀ k, k ≠ item.toUid →
        Col.get (((acceptRequest s cu item).friends.get item.fromUid).getD
          (Col.nil _)) k =
        Col.get ((s.friends.get item.fromUid).getD (Col.nil _)) k) ∧
      (∀ k, k ≠ item.fromUid →
        Col.get (((acceptRequest s cu item).friends.get item.toUid).getD
          (Col.nil _)) k =
        Col.get ((s.friends.get item.toUid).getD (Col.nil _)) k) := by
  cases cu with
  | none => exact Or.inl rfl
  | some u =>
    cases hreq : s.friendRequests.get item.id with
    | none =>
      left
      simp [acceptRequest, hreq]
    | some req =>
      right
      refine ⟨req, rfl, ?_, ?_, ?_, ?_, ?_, ?_, ?_, ?_, ?_, ?_, ?_, ?_⟩
      · simp [acceptRequest, hreq, Col.get_set_self]
      · simp [acceptRequest, hreq, Col.get_set_ne _ _ _ _ hne,
          Col.get_set_self]
      · simp [acceptRequest, hreq, Col.get_set_self]
      · simp [acceptRequest, hreq, Col.get_set_self]
      · simp [acceptRequest, hreq]
      · simp [acceptRequest, hreq]
      · simp [acceptRequest, hreq]
      · intro k hk
        simp [acceptRequest, hreq, Col.get_set_ne _ _ _ _ hk]
      · intro v hv1 hv2
        simp [acceptRequest, hreq, Col.get_set_ne _ _ _ _ hv1,
          Col.get_set_ne _ _ _ _ hv2]
      · intro c hc
        simp [acceptRequest, hreq, Col.get_set_ne _ _ _ _ hc]
      · intro k hk
        simp [acceptRequest, hreq, Col.get_set_ne _ _ _ _ hne,
          Col.get_set_self, Col.get_set_ne _ _ _ _ hk]
      · intro k hk
        simp [acceptRequest, hreq, Col.get_set_self,
          Col.get_set_ne _ _ _ _ (Ne.symm hne), Col.get_set_ne _ _ _ _ hk]

/-- Store used to exercise `accept_transaction_atomic`: a single pending
request from `u1` to `u2`. -/
def onePendingStore : Store :=
  { Store.empty with
    friendRequests := (Col.nil FriendRequest).set "u1__u2"
      ⟨"u1", "alice", "u2", "bob", ReqStatus.pending, 0, none⟩,
    clock := 5 }

theorem accept_transaction_atomic_witness :
    ∃ req, onePendingStore.friendRequests.get pendingItem.id = some req ∧
      (acceptRequest onePendingStore (some "u2")
          pendingItem).friendRequests.get pendingItem.id =
        some { req with
                status := ReqStatus.accepted
                respondedAt := some onePendingStore.clock } := by
  obtain ⟨req, ha, hb, _⟩ :=
    (accept_transaction_atomic onePendingStore (some "u2") pendingItem
      (by decide)).resolve_left (by decide)
  exact ⟨req, ha, hb⟩

/-- C3 counterexample: registration issues its two `setDoc` writes as two
separately awaited operations, not one batch.  With a fresh store and valid
inputs, when the directory write succeeds and the profile write then
rejects (caught by the handler's `try`/`catch`), the resulting state holds
the `usernames/alice` entry with no `users/u1` profile — exactly the
partial state the claim says is never observable. -/
theorem register_not_atomic_counterexample :
    ((registerSubmit Store.empty "Alice" "a@example.com" "pw" "u1"
        true true false).1.usernames.get "alice").isSome = true ∧
    (registerSubmit Store.empty "Alice" "a@example.com" "pw" "u1"
        true true false).1.users.get "u1" = none := by
  decide

/-- C3 (amended): when a directory entry for the normalized handle already
exists, registration fails with the handle-taken error and leaves the store
untouched; on a run in which every awaited step succeeds it creates both the
directory entry and the profile.  The two writes are, however, sequential
rather than atomic: if the profile write fails after the directory write
succeeded, the directory entry persists without any profile. -/
theorem register_handle_unique (s : Store)
    (username email password newUid : String) (profOk : Bool)
    (hn : jsLower (jsTrim username) ≠ "") (hp : password ≠ "")
    (he : jsTrim email ≠ "") :
    (∀ e, s.usernames.get (jsLower (jsTrim username)) = some e →
      ∀ authOk dirOk : Bool,
      registerSubmit s username email password newUid authOk dirOk profOk =
        (s, "Username is already taken.")) ∧
    (s.usernames.get (jsLower (jsTrim username)) = none →
      (profOk = true →
        (registerSubmit s username email password newUid true true
            profOk).1.usernames.get (jsLower (jsTrim username)) =
          some ⟨newUid, jsTrim email, jsLower (jsTrim username)⟩ ∧
        (registerSubmit s username email password newUid true true
            profOk).1.users.get newUid =
          some ⟨jsLower (jsTrim username), jsTrim email, s.clock⟩ ∧
        (registerSubmit s username email password newUid true true
            profOk).2 = "") ∧
      (profOk = false →
        (registerSubmit s username email password newUid true true
            profOk).1.usernames.get (jsLower (jsTrim username)) =
          some ⟨newUid, jsTrim email, jsLower (jsTrim username)⟩ ∧
        (registerSubmit s username email password newUid true true
            profOk).1.users = s.users)) := by
  constructor
  · intro e hgets authOk dirOk
    simp [registerSubmit, hn, hp, he, hgets]
  · intro hnone
    constructor
    · intro hok
      subst hok
      simp [registerSubmit, hn, hp, he, hnone, Col.get_set_self]
    · intro hok
      subst hok
      simp [registerSubmit, hn, hp, he, hnone, Col.get_set_self]

/-- Store with the handle `alice` already registered. -/
def aliceTakenStore : Store :=
  { Store.empty with
    usernames := (Col.nil DirectoryEntry).set "alice"
      ⟨"u1", "a@example.com", "alice"⟩ }

theorem register_handle_unique_witness :
    registerSubmit aliceTakenStore "Alice" "x@example.com" "pw" "u2"
        true true true =
      (aliceTakenStore, "Username is already taken.") :=
  (register_handle_unique aliceTakenStore "Alice" "x@example.com" "pw" "u2"
    true (by decide) (by decide) (by decide)).1
    ⟨"u1", "a@example.com", "alice"⟩ (by decide) true true

/-- C8: each delivery of the message subscription is computed from the full
current message list of the channel — a permutation of the stored list, not
a diff — ordered ascending by the store-assigned `createdAt`; and the two
participants resolve the same channel id, so their subscriptions deliver the
identical snapshot. -/
theorem subscription_snapshot_ordered (s : Store) (a b : String) :
    (messagesSnapshot s (getChatId a b)).Perm
      ((s.messages.get (getChatId a b)).getD []) ∧
    List.Pairwise (fun x y : Message => x.createdAt ≤ y.createdAt)
      (messagesSnapshot s (getChatId a b)) ∧
    messagesSnapshot s (getChatId a b) = messagesSnapshot s (getChatId b a) := by
  refine ⟨List.mergeSort_perm _ _, ?_, by rw [getChatId_comm]⟩
  have h := @List.sorted_mergeSort Message byCreatedAt
    (fun x y z hxy hyz => by
      simp only [byCreatedAt, decide_eq_true_eq] at hxy hyz ⊢
      omega)
    (fun x y => by
      simp only [byCreatedAt, Bool.or_eq_true, decide_eq_true_eq]
      omega)
    ((s.messages.get (getChatId a b)).getD [])
  exact h.imp (fun hx => by
    simpa only [byCreatedAt, decide_eq_true_eq] using hx)
